import Mathlib

/-!
Shallow embedding of the sshtui core: the raw terminal panel
(`src/terminal_panel.rs`) — screen buffer, escape interpreter and its
`Perform` actions — and the SSH session layer (`src/ssh.rs`,
`src/main.rs`): connect guards, reader loop, and PTY input path.

Machine integers (`u16` cursor coordinates, CSI parameters) are modelled
as `Nat`; Rust's `saturating_sub` coincides with `Nat` subtraction, and
the places where the source performs an *unchecked* `u16` addition or
multiplication that can exceed `u16::MAX` are modelled by an explicit
`panicked` flag (a debug-build Rust binary panics there; once set, the
interpreter stops processing, like an unwound panic).
-/

namespace SshTui

/-- The ratatui colors reachable from `handle_sgr`. -/
inductive Color
  | black | red | green | yellow | blue | magenta | cyan | white
  | darkGray | lightRed | lightGreen | lightYellow | lightBlue
  | lightMagenta | lightCyan
  deriving DecidableEq

/-- ratatui `Style`, restricted to the attributes this program sets:
`fg`/`bg` colors and the BOLD / UNDERLINED modifiers. `Style::default()`
is all-empty. -/
structure Style where
  fg : Option Color := none
  bg : Option Color := none
  bold : Bool := false
  underlined : Bool := false
  deriving DecidableEq

/-- `StyledChar` from terminal_panel.rs; its `Default` impl is a space
with the default style. -/
structure StyledChar where
  ch : Char := ' '
  style : Style := {}
  deriving DecidableEq

def StyledChar.default : StyledChar := {}

/-- ratatui `Rect` (only the fields the panel logic reads). -/
structure Rect where
  x : Nat := 0
  y : Nat := 0
  width : Nat
  height : Nat
  deriving DecidableEq

/-- Modelled from the spec: the `vte::Parser` automaton state
(§4.2, ParserState in §3) — the crate itself is an external dependency,
not part of this repository. Three states: Ground, Escape (after ESC),
and CSI (after ESC '['), the latter accumulating numeric parameters
separated by ';' until a final byte in 0x40–0x7E terminates the
sequence. `cur` is the parameter being accumulated (saturating at
`u16::MAX` = 65535 as in vte), `seenParam` records whether any
parameter character was consumed (so that a bare final byte dispatches
with an empty parameter list). -/
inductive ParserState
  | ground
  | escape
  | csi (params : List Nat) (cur : Nat) (seenParam : Bool)
  deriving DecidableEq

/-- `RawTerminalPanel` from terminal_panel.rs. The vte `Parser` field is
`parserState`; `panicked` is the explicit model of a Rust
arithmetic-overflow / out-of-bounds panic (see module comment). -/
structure RawTerminalPanel where
  bounds : Rect
  cursor_x : Nat
  cursor_y : Nat
  lines : List (List StyledChar)
  parserState : ParserState
  current_style : Style
  is_active : Bool
  input_buffer : List Nat
  panicked : Bool
  deriving DecidableEq

def u16Max : Nat := 65535

/-- `RawTerminalPanel::new`: a `height × width` grid of default cells,
cursor at the origin, parser in its initial (Ground) state. -/
def RawTerminalPanel.new (bounds : Rect) : RawTerminalPanel :=
  { bounds := bounds
    cursor_x := 0
    cursor_y := 0
    lines := List.replicate bounds.height (List.replicate bounds.width StyledChar.default)
    parserState := .ground
    current_style := {}
    is_active := false
    input_buffer := []
    panicked := false }

/-- Convenience: a fresh panel with bounds at the origin. -/
def mkPanel (w h : Nat) : RawTerminalPanel :=
  RawTerminalPanel.new { x := 0, y := 0, width := w, height := h }

/-- `RawTerminalPanel::resize_buffer`: reallocates the grid at the new
bounds, copying `lines[y][x]` where both indices are in range of the old
grid and padding with default cells elsewhere; then clamps each cursor
coordinate to `bound - 1` (saturating) when it is out of range. -/
def RawTerminalPanel.resize_buffer (s : RawTerminalPanel) : RawTerminalPanel :=
  let newH := s.bounds.height
  let newW := s.bounds.width
  let newLines := (List.range newH).map (fun y =>
    (List.range newW).map (fun x =>
      if y < s.lines.length ∧ x < (s.lines.getD y []).length then
        (s.lines.getD y []).getD x StyledChar.default
      else StyledChar.default))
  { s with
    lines := newLines
    cursor_x := if newW ≤ s.cursor_x then newW - 1 else s.cursor_x
    cursor_y := if newH ≤ s.cursor_y then newH - 1 else s.cursor_y }

/-- `RawTerminalPanel::set_bounds`: resizes only when the bounds
actually changed. -/
def RawTerminalPanel.set_bounds (s : RawTerminalPanel) (b : Rect) : RawTerminalPanel :=
  if s.bounds = b then s else RawTerminalPanel.resize_buffer { s with bounds := b }

/-- Clearing a row in place (`for styled_char in line { *styled_char =
default }`) keeps its length. -/
def blankRow (r : List StyledChar) : List StyledChar :=
  r.map (fun _ => StyledChar.default)

/-- `RawTerminalPanel::scroll_up` on the line list: `lines[i-1] =
lines[i]` for i in 1..len, then the last line is cleared in place. Net
effect: drop row 0, append a cleared copy of the old last row. -/
def scrollUpLines : List (List StyledChar) → List (List StyledChar)
  | [] => []
  | r :: rest => rest ++ [blankRow ((r :: rest).getLastD r)]

def RawTerminalPanel.scroll_up (s : RawTerminalPanel) : RawTerminalPanel :=
  { s with lines := scrollUpLines s.lines }

/-- `RawTerminalPanel::clear`: every cell reset to default AND the
cursor moved to the origin. -/
def RawTerminalPanel.clear (s : RawTerminalPanel) : RawTerminalPanel :=
  { s with lines := s.lines.map blankRow, cursor_x := 0, cursor_y := 0 }

/-- `for x in cx..line.len() { line[x] = default }`: clears the cells at
index ≥ cx. -/
def clearRowFrom : Nat → List StyledChar → List StyledChar
  | _, [] => []
  | 0, _ :: rest => StyledChar.default :: clearRowFrom 0 rest
  | n + 1, c :: rest => c :: clearRowFrom n rest

/-- Clears the cells at index ≤ n (inclusive). -/
def clearRowUpTo : Nat → List StyledChar → List StyledChar
  | _, [] => []
  | 0, _ :: rest => StyledChar.default :: rest
  | n + 1, _ :: rest => StyledChar.default :: clearRowUpTo n rest

/-- `for x in 0..=(cx).min(line.len().saturating_sub(1)) { line[x] =
default }`: on an empty line the range `0..=0` still yields x = 0 and
`line[0]` is an out-of-bounds index — a Rust panic, modelled as
`none`. -/
def clearRowTo (cx : Nat) (r : List StyledChar) : Option (List StyledChar) :=
  if r.isEmpty then none
  else some (clearRowUpTo (min cx (r.length - 1)) r)

/-- `RawTerminalPanel::clear_from_cursor` on the line list: row `cy` is
cleared from column `cx` on (when it exists), and every row below `cy`
is cleared entirely. -/
def clearGridFrom (cx : Nat) : Nat → List (List StyledChar) → List (List StyledChar)
  | _, [] => []
  | 0, r :: rest => clearRowFrom cx r :: rest.map blankRow
  | n + 1, r :: rest => r :: clearGridFrom cx n rest

/-- `RawTerminalPanel::clear_to_cursor` on the line list: every row
above `cy` is cleared entirely, then row `cy` (when it exists) is
cleared up to the cursor via `clearRowTo` — whose panic case
propagates. -/
def clearGridTo (cx : Nat) : Nat → List (List StyledChar) → Option (List (List StyledChar))
  | _, [] => some []
  | 0, r :: rest => (clearRowTo cx r).map (fun r2 => r2 :: rest)
  | n + 1, r :: rest => (clearGridTo cx n rest).map (fun ls => blankRow r :: ls)

def RawTerminalPanel.clear_from_cursor (s : RawTerminalPanel) : RawTerminalPanel :=
  { s with lines := clearGridFrom s.cursor_x s.cursor_y s.lines }

def RawTerminalPanel.clear_to_cursor (s : RawTerminalPanel) : RawTerminalPanel :=
  match clearGridTo s.cursor_x s.cursor_y s.lines with
  | none => { s with panicked := true }
  | some ls => { s with lines := ls }

/-- Rust `char::is_control`: the Unicode Cc category, i.e. U+0000–U+001F
and U+007F–U+009F. -/
def isControlChar (c : Char) : Bool :=
  c.toNat < 0x20 || (0x7F ≤ c.toNat && c.toNat ≤ 0x9F)

/-- `RawTerminalPanel::write_char`. `inner_width`/`inner_height` are the
bounds minus 2 (borders). The `'\t'` arm's `((cursor_x / 8) + 1) * 8` is
unchecked u16 arithmetic (panic modelled when it exceeds 65535). `List.set`
is a no-op out of range, matching the source's index guards. -/
def RawTerminalPanel.write_char (s : RawTerminalPanel) (ch : Char) : RawTerminalPanel :=
  let innerW := s.bounds.width - 2
  let innerH := s.bounds.height - 2
  if ch = '\n' then
    let s1 : RawTerminalPanel := { s with cursor_x := 0, cursor_y := s.cursor_y + 1 }
    if innerH ≤ s1.cursor_y then { s1.scroll_up with cursor_y := innerH - 1 }
    else s1
  else if ch = '\r' then
    { s with cursor_x := 0 }
  else if ch = '\t' then
    let nextTab := (s.cursor_x / 8 + 1) * 8
    if u16Max < nextTab then { s with panicked := true }
    else { s with cursor_x := min nextTab (innerW - 1) }
  else if isControlChar ch then s
  else
    let s1 : RawTerminalPanel :=
      if s.cursor_y < s.lines.length ∧ s.cursor_x < innerW then
        { s with lines := (s.lines.set s.cursor_y
            ((s.lines.getD s.cursor_y []).set s.cursor_x ⟨ch, s.current_style⟩)) }
      else s
    let s2 : RawTerminalPanel := { s1 with cursor_x := s1.cursor_x + 1 }
    if innerW ≤ s2.cursor_x then
      let s3 : RawTerminalPanel := { s2 with cursor_x := 0, cursor_y := s2.cursor_y + 1 }
      if innerH ≤ s3.cursor_y then { s3.scroll_up with cursor_y := innerH - 1 }
      else s3
    else s2

/-- `Perform::execute` (C0 control bytes): LF, CR, TAB delegate to
`write_char`; backspace moves the cursor one column left when it is not
already at column 0; everything else is ignored. -/
def RawTerminalPanel.execute (s : RawTerminalPanel) (byte : Nat) : RawTerminalPanel :=
  if byte = 10 then s.write_char '\n'
  else if byte = 13 then s.write_char '\r'
  else if byte = 9 then s.write_char '\t'
  else if byte = 8 then
    if 0 < s.cursor_x then { s with cursor_x := s.cursor_x - 1 } else s
  else s

/-- `params.iter().nth(i).unwrap_or(&[d])[0]`. -/
def getParam (ps : List Nat) (i d : Nat) : Nat := ps.getD i d

/-- SGR 30–37 foreground table. -/
def sgrFgColor (n : Nat) : Color :=
  if n = 30 then .black else if n = 31 then .red
  else if n = 32 then .green else if n = 33 then .yellow
  else if n = 34 then .blue else if n = 35 then .magenta
  else if n = 36 then .cyan else .white

/-- SGR 40–47 background table. -/
def sgrBgColor (n : Nat) : Color :=
  if n = 40 then .black else if n = 41 then .red
  else if n = 42 then .green else if n = 43 then .yellow
  else if n = 44 then .blue else if n = 45 then .magenta
  else if n = 46 then .cyan else if n = 47 then .white
  else .black

/-- SGR 90–97 bright foreground table. -/
def sgrBrightColor (n : Nat) : Color :=
  if n = 90 then .darkGray else if n = 91 then .lightRed
  else if n = 92 then .lightGreen else if n = 93 then .lightYellow
  else if n = 94 then .lightBlue else if n = 95 then .lightMagenta
  else if n = 96 then .lightCyan else .white

/-- One iteration of the `handle_sgr` parameter loop. -/
def sgrApply (st : Style) (n : Nat) : Style :=
  if n = 0 then {}
  else if n = 1 then { st with bold := true }
  else if n = 4 then { st with underlined := true }
  else if 30 ≤ n ∧ n ≤ 37 then { st with fg := some (sgrFgColor n) }
  else if 40 ≤ n ∧ n ≤ 47 then { st with bg := some (sgrBgColor n) }
  else if 90 ≤ n ∧ n ≤ 97 then { st with fg := some (sgrBrightColor n) }
  else st

/-- `RawTerminalPanel::handle_sgr`: parameters processed left to
right. -/
def RawTerminalPanel.handle_sgr (s : RawTerminalPanel) (ps : List Nat) : RawTerminalPanel :=
  { s with current_style := ps.foldl sgrApply s.current_style }

/-- CSI 'A' arm: cursor up by n (`saturating_sub`, i.e. `Nat`
subtraction). -/
def csiCursorUp (s : RawTerminalPanel) (ps : List Nat) : RawTerminalPanel :=
  { s with cursor_y := s.cursor_y - getParam ps 0 1 }

/-- CSI 'B' arm: cursor down by n. The source computes the *unchecked*
u16 sum `cursor_y + n` before the `min` clamp; a sum above `u16::MAX` is
an overflow (panic in a debug build), modelled by `panicked`. -/
def csiCursorDown (s : RawTerminalPanel) (ps : List Nat) : RawTerminalPanel :=
  if u16Max < s.cursor_y + getParam ps 0 1 then { s with panicked := true }
  else { s with cursor_y := min (s.cursor_y + getParam ps 0 1) (s.bounds.height - 3) }

/-- CSI 'C' arm: cursor forward by n, with the same unchecked u16 sum as
the 'B' arm. -/
def csiCursorForward (s : RawTerminalPanel) (ps : List Nat) : RawTerminalPanel :=
  if u16Max < s.cursor_x + getParam ps 0 1 then { s with panicked := true }
  else { s with cursor_x := min (s.cursor_x + getParam ps 0 1) (s.bounds.width - 3) }

/-- CSI 'D' arm: cursor back by n (`saturating_sub`). -/
def csiCursorBack (s : RawTerminalPanel) (ps : List Nat) : RawTerminalPanel :=
  { s with cursor_x := s.cursor_x - getParam ps 0 1 }

/-- CSI 'H' / 'f' arm: absolute cursor position. 1-based (row, col)
parameters defaulting to 1, `saturating_sub 1`, clamped by `min` against
`bounds - 3`. -/
def csiCursorPos (s : RawTerminalPanel) (ps : List Nat) : RawTerminalPanel :=
  { s with cursor_y := min (getParam ps 0 1 - 1) (s.bounds.height - 3)
           cursor_x := min (getParam ps 1 1 - 1) (s.bounds.width - 3) }

/-- CSI 'J' arm: erase display, parameter defaulting to 0. -/
def csiEraseDisplay (s : RawTerminalPanel) (ps : List Nat) : RawTerminalPanel :=
  if getParam ps 0 0 = 0 then s.clear_from_cursor
  else if getParam ps 0 0 = 1 then s.clear_to_cursor
  else if getParam ps 0 0 = 2 then s.clear
  else s

/-- CSI 'K' arm: erase line, parameter defaulting to 0; each case is
guarded by `cursor_y < lines.len()`. -/
def csiEraseLine (s : RawTerminalPanel) (ps : List Nat) : RawTerminalPanel :=
  if getParam ps 0 0 = 0 then
    if s.cursor_y < s.lines.length then
      { s with lines := (s.lines.set s.cursor_y
          (clearRowFrom s.cursor_x (s.lines.getD s.cursor_y []))) }
    else s
  else if getParam ps 0 0 = 1 then
    if s.cursor_y < s.lines.length then
      match clearRowTo s.cursor_x (s.lines.getD s.cursor_y []) with
      | none => { s with panicked := true }
      | some r => { s with lines := s.lines.set s.cursor_y r }
    else s
  else if getParam ps 0 0 = 2 then
    if s.cursor_y < s.lines.length then
      { s with lines := (s.lines.set s.cursor_y
          (blankRow (s.lines.getD s.cursor_y []))) }
    else s
  else s

/-- `Perform::csi_dispatch`: dispatch on the final byte; unrecognized
final bytes fall through with no mutation. -/
def RawTerminalPanel.csi_dispatch (s : RawTerminalPanel) (ps : List Nat) (c : Char) :
    RawTerminalPanel :=
  if c = 'A' then csiCursorUp s ps
  else if c = 'B' then csiCursorDown s ps
  else if c = 'C' then csiCursorForward s ps
  else if c = 'D' then csiCursorBack s ps
  else if c = 'H' ∨ c = 'f' then csiCursorPos s ps
  else if c = 'J' then csiEraseDisplay s ps
  else if c = 'K' then csiEraseLine s ps
  else if c = 'm' then s.handle_sgr ps
  else s

/-- Modelled from the spec: one step of `vte::Parser::advance` (the vte
crate is external to this repository) specialised to this program's
`Perform` impl, per §4.2: in Ground, ESC enters Escape, other bytes
below 0x20 go to `execute`, and printable bytes go to `print` (=
`write_char`); in Escape, '[' enters CSI and any other byte returns to
Ground (`esc_dispatch` is a no-op here); in CSI, digits accumulate a
parameter (saturating at 65535 as vte's u16 params do), ';' pushes it,
a final byte in 0x40–0x7E dispatches `csi_dispatch` and returns to
Ground, and other bytes are discarded. A panicked state stays as it is
(the process died). -/
def RawTerminalPanel.advance (s : RawTerminalPanel) (b : Nat) : RawTerminalPanel :=
  if s.panicked then s
  else match s.parserState with
  | .ground =>
    if b = 0x1B then { s with parserState := .escape }
    else if b < 0x20 then s.execute b
    else s.write_char (Char.ofNat b)
  | .escape =>
    if b = 0x5B then { s with parserState := .csi [] 0 false }
    else { s with parserState := .ground }
  | .csi ps cur seen =>
    if 0x30 ≤ b ∧ b ≤ 0x39 then
      { s with parserState := .csi ps (min (cur * 10 + (b - 0x30)) u16Max) true }
    else if b = 0x3B then
      { s with parserState := .csi (ps ++ [cur]) 0 true }
    else if 0x40 ≤ b ∧ b ≤ 0x7E then
      let fullPs := if seen then ps ++ [cur] else ps
      { s.csi_dispatch fullPs (Char.ofNat b) with parserState := .ground }
    else s

/-- `RawTerminalPanel::write_ssh_data`: appends `data` to the input
buffer, clears the buffer, and runs every buffered byte through the
parser in order. -/
def RawTerminalPanel.write_ssh_data (s : RawTerminalPanel) (data : List Nat) :
    RawTerminalPanel :=
  (s.input_buffer ++ data).foldl RawTerminalPanel.advance { s with input_buffer := [] }

/-- Cell lookup used by the theorems (out-of-range reads yield the
default cell). -/
def RawTerminalPanel.getCell (s : RawTerminalPanel) (y x : Nat) : StyledChar :=
  (s.lines.getD y []).getD x StyledChar.default

/-- Grid dimension invariant: exactly `h` rows, each of exactly `w`
cells. -/
def GridWF (w h : Nat) (ls : List (List StyledChar)) : Prop :=
  ls.length = h ∧ ∀ r ∈ ls, r.length = w

/-- Panel well-formedness: the grid dimensions match the current
bounds. -/
def WF (s : RawTerminalPanel) : Prop :=
  GridWF s.bounds.width s.bounds.height s.lines

/-- The public mutating operations of the panel, for stating the
invariant over arbitrary operation sequences. -/
inductive PanelOp
  | feed (data : List Nat)
  | clearOp
  | scrollOp
  | setBoundsOp (b : Rect)

def applyOp (s : RawTerminalPanel) : PanelOp → RawTerminalPanel
  | PanelOp.feed d => s.write_ssh_data d
  | PanelOp.clearOp => s.clear
  | PanelOp.scrollOp => s.scroll_up
  | PanelOp.setBoundsOp b => s.set_bounds b

def applyOps (s : RawTerminalPanel) (ops : List PanelOp) : RawTerminalPanel :=
  ops.foldl applyOp s

/-- Host record from config.rs, restricted to the fields the connect
path reads. -/
structure Host where
  name : String
  host : String
  user : String
  port : Nat
  key_path : Option String
  deriving DecidableEq

/-- SshClient from ssh.rs: the connection flags and the active host. -/
structure SshClient where
  connected : Bool
  connecting : Bool
  host : Option Host
  deriving DecidableEq

/-- SshClient::new, via the Default impl: all flags down, no host. -/
def SshClient.new : SshClient :=
  { connected := false, connecting := false, host := none }

/-- SshClient::connect: rejects with an error only while `connecting`
is set; otherwise marks the client connecting, records the host and
spawns the connection task. The spawn itself is abstracted: an `ok`
result means the attempt was started. Note the guard does NOT consult
`connected`. -/
def SshClient.connect (c : SshClient) (h : Host) : Except String SshClient :=
  if c.connecting then Except.error "Already connecting"
  else Except.ok { c with connecting := true, host := some h }

/-- App::connect_to_host from main.rs: returns `Ok` without starting
anything when a session is already Connecting or Connected, or when no
key is configured; otherwise delegates to SshClient::connect. The Bool
in the result records whether a connection attempt was started. -/
def connectToHost (c : SshClient) (h : Host) (keyAvailable : Bool) :
    Except String (SshClient × Bool) :=
  if c.connecting || c.connected then Except.ok (c, false)
  else if !keyAvailable then Except.ok (c, false)
  else
    match c.connect h with
    | Except.error e => Except.error e
    | Except.ok c2 => Except.ok (c2, true)

/-- A concrete host used by counterexamples and witnesses. -/
def demoHost : Host :=
  { name := "h", host := "example.com", user := "u", port := 22, key_path := none }

/-- One result of `pty_reader.read` in the reader thread: a non-empty
chunk of bytes, end of file (`Ok(0)`), or an OS error. -/
inductive ReadResult
  | data (bytes : List Nat)
  | eof
  | readErr (msg : String)

/-- SshEvent from ssh.rs. -/
inductive SshEvent
  | connectedEv (h : Host)
  | dataEv (bytes : List Nat)
  | errorEv (msg : String)
  | disconnectedEv
  deriving DecidableEq

/-- The reader thread loop from establish_connection_static, run over a
list of successive read results. Returns the events it sends, whether
the guarded global PTY writer is still present afterwards, and whether
the loop stopped (`break`). A data read emits a Data event and
continues; EOF clears the writer, emits Disconnected and breaks; a read
error clears the writer, emits Error and breaks — results after a break
are never read. -/
def readerRun : List ReadResult → List SshEvent × Bool × Bool
  | [] => ([], true, false)
  | ReadResult.data bs :: rest =>
    let r := readerRun rest
    (SshEvent.dataEv bs :: r.1, r.2.1, r.2.2)
  | ReadResult.eof :: _ => ([SshEvent.disconnectedEv], false, true)
  | ReadResult.readErr m :: _ => ([SshEvent.errorEv m], false, true)

/-- SshClient::send_input: when `connected` is down it fails with the
"SSH not connected" error; when up, it locks the guarded writer and
fails with "No PTY writer available" when the handle is empty (the data
is never silently dropped). The successful write is abstracted to
`ok`. -/
def send_input (connected writerPresent : Bool) (data : List Nat) : Except String Unit :=
  if connected then
    if writerPresent then Except.ok () else Except.error "No PTY writer available"
  else Except.error "SSH not connected"


/-! Helper lemmas. -/

theorem input_buffer_write_char (s : RawTerminalPanel) (c : Char) :
    (s.write_char c).input_buffer = s.input_buffer := by
  unfold RawTerminalPanel.write_char
  dsimp only
  repeat' split
  all_goals rfl

theorem input_buffer_execute (s : RawTerminalPanel) (b : Nat) :
    (s.execute b).input_buffer = s.input_buffer := by
  unfold RawTerminalPanel.execute
  repeat' split
  all_goals first | rfl | apply input_buffer_write_char

theorem input_buffer_csiEraseDisplay (s : RawTerminalPanel) (ps : List Nat) :
    (csiEraseDisplay s ps).input_buffer = s.input_buffer := by
  unfold csiEraseDisplay RawTerminalPanel.clear_from_cursor
    RawTerminalPanel.clear_to_cursor RawTerminalPanel.clear
  repeat' split
  all_goals rfl

theorem input_buffer_csiEraseLine (s : RawTerminalPanel) (ps : List Nat) :
    (csiEraseLine s ps).input_buffer = s.input_buffer := by
  unfold csiEraseLine
  repeat' split
  all_goals rfl

theorem input_buffer_csi_dispatch (s : RawTerminalPanel) (ps : List Nat) (c : Char) :
    (s.csi_dispatch ps c).input_buffer = s.input_buffer := by
  unfold RawTerminalPanel.csi_dispatch
  repeat' split
  all_goals first
    | rfl
    | apply input_buffer_csiEraseDisplay
    | apply input_buffer_csiEraseLine
    | (simp only [csiCursorUp, csiCursorDown, csiCursorForward, csiCursorBack,
         csiCursorPos, RawTerminalPanel.handle_sgr]
       repeat' split
       all_goals rfl)

theorem input_buffer_advance (s : RawTerminalPanel) (b : Nat) :
    (s.advance b).input_buffer = s.input_buffer := by
  unfold RawTerminalPanel.advance
  split
  · rfl
  · split
    · split
      · rfl
      · split
        · apply input_buffer_execute
        · apply input_buffer_write_char
    · split <;> rfl
    · repeat' split
      all_goals first | rfl | apply input_buffer_csi_dispatch

theorem foldl_advance_input_buffer (l : List Nat) :
    ∀ t : RawTerminalPanel,
      (l.foldl RawTerminalPanel.advance t).input_buffer = t.input_buffer := by
  induction l with
  | nil => intro t; rfl
  | cons x xs ih =>
    intro t
    simp only [List.foldl_cons]
    rw [ih, input_buffer_advance]

theorem panel_eta_input_buffer (X : RawTerminalPanel) (h : X.input_buffer = []) :
    { X with input_buffer := [] } = X := by
  cases X
  simp_all

theorem write_char_cr (s : RawTerminalPanel) :
    s.write_char '\x0d' = { s with cursor_x := 0 } := by
  simp [RawTerminalPanel.write_char]

theorem write_char_lf (s : RawTerminalPanel) :
    s.write_char '\n' =
      if s.bounds.height - 2 ≤ s.cursor_y + 1 then
        { s with cursor_x := 0, cursor_y := s.bounds.height - 2 - 1,
                 lines := scrollUpLines s.lines }
      else { s with cursor_x := 0, cursor_y := s.cursor_y + 1 } := by
  simp only [RawTerminalPanel.write_char]
  norm_num
  split <;> rfl

theorem length_clearRowFrom : ∀ (n : Nat) (r : List StyledChar),
    (clearRowFrom n r).length = r.length := by
  intro n r
  induction r generalizing n with
  | nil => cases n <;> rfl
  | cons c rest ih =>
    cases n with
    | zero => simp [clearRowFrom, ih]
    | succ m => simp [clearRowFrom, ih]

theorem length_clearRowUpTo : ∀ (n : Nat) (r : List StyledChar),
    (clearRowUpTo n r).length = r.length := by
  intro n r
  induction r generalizing n with
  | nil => cases n <;> rfl
  | cons c rest ih =>
    cases n with
    | zero => simp [clearRowUpTo]
    | succ m => simp [clearRowUpTo, ih]

theorem getD_clearRowFrom (r : List StyledChar) : ∀ (n i : Nat), i < r.length →
    (clearRowFrom n r).getD i StyledChar.default =
      if n ≤ i then StyledChar.default else r.getD i StyledChar.default := by
  induction r with
  | nil => intro n i h; simp at h
  | cons c rest ih =>
    intro n i h
    cases n with
    | zero =>
      cases i with
      | zero => simp [clearRowFrom]
      | succ j =>
        simp only [clearRowFrom, List.getD_cons_succ]
        rw [ih 0 j (by simpa using h)]
        simp
    | succ m =>
      cases i with
      | zero => simp [clearRowFrom]
      | succ j =>
        simp only [clearRowFrom, List.getD_cons_succ]
        rw [ih m j (by simpa using h)]
        by_cases hmj : m ≤ j
        · rw [if_pos hmj, if_pos (by omega)]
        · rw [if_neg hmj, if_neg (by omega)]

theorem getD_clearRowUpTo (r : List StyledChar) : ∀ (n i : Nat), i < r.length →
    (clearRowUpTo n r).getD i StyledChar.default =
      if i ≤ n then StyledChar.default else r.getD i StyledChar.default := by
  induction r with
  | nil => intro n i h; simp at h
  | cons c rest ih =>
    intro n i h
    cases n with
    | zero =>
      cases i with
      | zero => simp [clearRowUpTo]
      | succ j => simp [clearRowUpTo, List.getD_cons_succ]
    | succ m =>
      cases i with
      | zero => simp [clearRowUpTo]
      | succ j =>
        simp only [clearRowUpTo, List.getD_cons_succ]
        rw [ih m j (by simpa using h)]
        by_cases hjm : j ≤ m
        · rw [if_pos hjm, if_pos (by omega)]
        · rw [if_neg hjm, if_neg (by omega)]

theorem clearRowTo_spec (cx : Nat) (r : List StyledChar) (hne : r ≠ []) :
    ∃ r2, clearRowTo cx r = some r2 ∧ r2.length = r.length ∧
      ∀ i, i < r.length → r2.getD i StyledChar.default =
        if i ≤ cx then StyledChar.default else r.getD i StyledChar.default := by
  refine ⟨clearRowUpTo (min cx (r.length - 1)) r, ?_, length_clearRowUpTo _ _, ?_⟩
  · unfold clearRowTo
    rw [if_neg (by simpa [List.isEmpty_iff] using hne)]
  · intro i hi
    rw [getD_clearRowUpTo _ _ _ hi]
    by_cases h : i ≤ cx
    · rw [if_pos (le_min_iff.mpr ⟨h, by omega⟩), if_pos h]
    · rw [if_neg (fun hm => h (le_trans hm (min_le_left _ _))), if_neg h]

theorem blankRow_getD (r : List StyledChar) (x : Nat) (hx : x < r.length) :
    (blankRow r).getD x StyledChar.default = StyledChar.default := by
  unfold blankRow
  rw [List.getD_eq_getElem _ _ (by simpa using hx)]
  simp

theorem getD_map_blankRow (ls : List (List StyledChar)) (j : Nat) (hj : j < ls.length) :
    (ls.map blankRow).getD j [] = blankRow (ls.getD j []) := by
  rw [List.getD_eq_getElem _ _ (by simpa using hj), List.getD_eq_getElem _ _ hj]
  simp
theorem getD_clearGridFrom (cx : Nat) : ∀ (cy : Nat) (ls : List (List StyledChar))
    (y x : Nat), y < ls.length → x < (ls.getD y []).length →
    ((clearGridFrom cx cy ls).getD y []).getD x StyledChar.default =
      if cy < y ∨ (y = cy ∧ cx ≤ x) then StyledChar.default
      else (ls.getD y []).getD x StyledChar.default := by
  intro cy ls
  induction ls generalizing cy with
  | nil => intro y x hy hx; simp at hy
  | cons r rest ih =>
    intro y x hy hx
    cases cy with
    | zero =>
      cases y with
      | zero =>
        simp only [clearGridFrom, List.getD_cons_zero]
        rw [getD_clearRowFrom _ _ _ (by simpa using hx)]
        by_cases h : cx ≤ x
        · rw [if_pos h, if_pos (Or.inr ⟨by trivial, h⟩)]
        · rw [if_neg h, if_neg (by rintro (h2 | ⟨h2, h3⟩) <;> omega)]
      | succ j =>
        simp only [clearGridFrom, List.getD_cons_succ]
        rw [getD_map_blankRow _ _ (by simpa using hy)]
        rw [blankRow_getD _ _ (by simpa using hx)]
        rw [if_pos (Or.inl (by omega))]
    | succ m =>
      cases y with
      | zero =>
        simp only [clearGridFrom, List.getD_cons_zero]
        rw [if_neg (by rintro (h2 | ⟨h2, h3⟩) <;> omega)]
      | succ j =>
        simp only [clearGridFrom, List.getD_cons_succ]
        rw [ih m j x (by simpa using hy) (by simpa using hx)]
        by_cases h : m < j ∨ (j = m ∧ cx ≤ x)
        · rw [if_pos h, if_pos ?_]
          rcases h with h | ⟨h1, h2⟩
          · exact Or.inl (by omega)
          · exact Or.inr ⟨by omega, h2⟩
        · rw [if_neg h, if_neg ?_]
          rintro (h2 | ⟨h2, h3⟩)
          · exact h (Or.inl (by omega))
          · exact h (Or.inr ⟨by omega, h3⟩)

theorem clearGridTo_spec (cx : Nat) : ∀ (cy : Nat) (ls : List (List StyledChar)),
    (∀ r ∈ ls, r ≠ ([] : List StyledChar)) →
    ∃ ls', clearGridTo cx cy ls = some ls' ∧ ls'.length = ls.length ∧
      (∀ w : Nat, (∀ r ∈ ls, r.length = w) → ∀ r' ∈ ls', r'.length = w) ∧
      ∀ y x, y < ls.length → x < (ls.getD y []).length →
        (ls'.getD y []).getD x StyledChar.default =
          if y < cy ∨ (y = cy ∧ x ≤ cx) then StyledChar.default
          else (ls.getD y []).getD x StyledChar.default := by
  intro cy ls
  induction ls generalizing cy with
  | nil =>
    intro _
    exact ⟨[], by cases cy <;> rfl, rfl, by simp, by intro y x hy hx; simp at hy⟩
  | cons r rest ih =>
    intro hne
    cases cy with
    | zero =>
      obtain ⟨r', hr', hlen, hget⟩ := clearRowTo_spec cx r (hne r (by simp))
      refine ⟨r' :: rest, ?_, by simp [hlen], ?_, ?_⟩
      · simp [clearGridTo, hr']
      · intro w hw r2 hr2
        rcases List.mem_cons.mp hr2 with h | h
        · subst h; rw [hlen]; exact hw r (by simp)
        · exact hw r2 (List.mem_cons_of_mem _ h)
      · intro y x hy hx
        cases y with
        | zero =>
          simp only [List.getD_cons_zero]
          rw [hget x (by simpa using hx)]
          by_cases h : x ≤ cx
          · rw [if_pos h, if_pos (Or.inr ⟨by trivial, h⟩)]
          · rw [if_neg h, if_neg (by rintro (h2 | ⟨h2, h3⟩) <;> omega)]
        | succ j =>
          simp only [List.getD_cons_succ]
          rw [if_neg (by rintro (h2 | ⟨h2, h3⟩) <;> omega)]
    | succ m =>
      obtain ⟨ls', hls', hlen, hrows, hget⟩ :=
        ih m (fun r2 h2 => hne r2 (List.mem_cons_of_mem _ h2))
      refine ⟨blankRow r :: ls', ?_, by simp [hlen], ?_, ?_⟩
      · simp [clearGridTo, hls']
      · intro w hw r2 hr2
        rcases List.mem_cons.mp hr2 with h | h
        · subst h
          simpa [blankRow] using hw r (by simp)
        · exact hrows w (fun r3 h3 => hw r3 (List.mem_cons_of_mem _ h3)) r2 h
      · intro y x hy hx
        cases y with
        | zero =>
          simp only [List.getD_cons_zero]
          rw [blankRow_getD _ _ (by simpa using hx), if_pos (Or.inl (by omega))]
        | succ j =>
          simp only [List.getD_cons_succ]
          rw [hget j x (by simpa using hy) (by simpa using hx)]
          by_cases h : j < m ∨ (j = m ∧ x ≤ cx)
          · rw [if_pos h, if_pos ?_]
            rcases h with h | ⟨h1, h2⟩
            · exact Or.inl (by omega)
            · exact Or.inr ⟨by omega, h2⟩
          · rw [if_neg h, if_neg ?_]
            rintro (h2 | ⟨h2, h3⟩)
            · exact h (Or.inl (by omega))
            · exact h (Or.inr ⟨by omega, h3⟩)

theorem length_scrollUpLines (ls : List (List StyledChar)) :
    (scrollUpLines ls).length = ls.length := by
  cases ls <;> simp [scrollUpLines]

theorem rows_scrollUpLines (w : Nat) (ls : List (List StyledChar))
    (hW : ∀ r ∈ ls, r.length = w) :
    ∀ r2 ∈ scrollUpLines ls, r2.length = w := by
  cases ls with
  | nil => simp [scrollUpLines]
  | cons r rest =>
    intro r2 hr2
    simp only [scrollUpLines, List.mem_append, List.mem_singleton] at hr2
    rcases hr2 with h1 | h1
    · exact hW r2 (List.mem_cons_of_mem _ h1)
    · subst h1
      have hmem : (r :: rest).getLastD r ∈ r :: rest := by
        rcases List.mem_cons.mp (List.getLastD_mem_cons (r :: rest) r) with h2 | h2
        · rw [h2]; exact List.mem_cons_self _ _
        · exact h2
      simpa [blankRow] using hW _ hmem

theorem GridWF_scrollUp {w h : Nat} {ls : List (List StyledChar)}
    (hg : GridWF w h ls) : GridWF w h (scrollUpLines ls) :=
  ⟨by rw [length_scrollUpLines]; exact hg.1, rows_scrollUpLines w ls hg.2⟩

theorem GridWF_map_blankRow {w h : Nat} {ls : List (List StyledChar)}
    (hg : GridWF w h ls) : GridWF w h (ls.map blankRow) := by
  constructor
  · rw [List.length_map]; exact hg.1
  · intro r2 hr2
    obtain ⟨r, hr, rfl⟩ := List.mem_map.mp hr2
    simpa [blankRow] using hg.2 r hr

theorem GridWF_set {w h : Nat} {ls : List (List StyledChar)} (hg : GridWF w h ls)
    (y : Nat) (r2 : List StyledChar) (hr : r2.length = (ls.getD y []).length) :
    GridWF w h (ls.set y r2) := by
  by_cases hy : y < ls.length
  · constructor
    · rw [List.length_set]; exact hg.1
    · intro r3 hr3
      rcases List.mem_or_eq_of_mem_set hr3 with h3 | h3
      · exact hg.2 r3 h3
      · subst h3
        rw [hr, List.getD_eq_getElem _ _ hy]
        exact hg.2 _ (List.getElem_mem hy)
  · rw [List.set_eq_of_length_le (by omega)]
    exact hg

theorem length_clearGridFrom (cx : Nat) : ∀ (cy : Nat) (ls : List (List StyledChar)),
    (clearGridFrom cx cy ls).length = ls.length := by
  intro cy ls
  induction ls generalizing cy with
  | nil => cases cy <;> rfl
  | cons r rest ih =>
    cases cy with
    | zero => simp [clearGridFrom]
    | succ m => simp [clearGridFrom, ih m]

theorem rows_clearGridFrom (cx w : Nat) : ∀ (cy : Nat) (ls : List (List StyledChar)),
    (∀ r ∈ ls, r.length = w) → ∀ r2 ∈ clearGridFrom cx cy ls, r2.length = w := by
  intro cy ls
  induction ls generalizing cy with
  | nil => cases cy <;> simp [clearGridFrom]
  | cons row rest ih =>
    intro hW rr hrr
    cases cy with
    | zero =>
      simp only [clearGridFrom, List.mem_cons] at hrr
      rcases hrr with h1 | h1
      · subst h1
        rw [length_clearRowFrom]
        exact hW row (by simp)
      · obtain ⟨r3, hr3, rfl⟩ := List.mem_map.mp h1
        simpa [blankRow] using hW r3 (List.mem_cons_of_mem _ hr3)
    | succ m =>
      simp only [clearGridFrom, List.mem_cons] at hrr
      rcases hrr with h1 | h1
      · rw [h1]; exact hW row (by simp)
      · exact ih m (fun r3 h3 => hW r3 (List.mem_cons_of_mem _ h3)) rr h1

theorem GridWF_clearGridFrom {w h : Nat} {ls : List (List StyledChar)} (cx cy : Nat)
    (hg : GridWF w h ls) : GridWF w h (clearGridFrom cx cy ls) :=
  ⟨by rw [length_clearGridFrom]; exact hg.1, rows_clearGridFrom cx w cy ls hg.2⟩

theorem clearRowTo_some_length (cx : Nat) (r r2 : List StyledChar)
    (h : clearRowTo cx r = some r2) : r2.length = r.length := by
  unfold clearRowTo at h
  split at h
  · exact absurd h (by simp)
  · rw [← Option.some_inj.mp h, length_clearRowUpTo]

theorem clearGridTo_some_spec (cx : Nat) : ∀ (cy : Nat) (ls ls2 : List (List StyledChar)),
    clearGridTo cx cy ls = some ls2 →
    ls2.length = ls.length ∧
      ∀ w : Nat, (∀ r ∈ ls, r.length = w) → ∀ r2 ∈ ls2, r2.length = w := by
  intro cy ls
  induction ls generalizing cy with
  | nil =>
    intro ls2 h
    cases cy with
    | zero =>
      refine ⟨?_, ?_⟩ <;> simp_all [clearGridTo]
    | succ m =>
      refine ⟨?_, ?_⟩ <;> simp_all [clearGridTo]
  | cons r rest ih =>
    intro ls2 h
    cases cy with
    | zero =>
      simp only [clearGridTo, Option.map_eq_some'] at h
      obtain ⟨r2, hr2, rfl⟩ := h
      constructor
      · simp
      · intro w hW r3 hr3
        rcases List.mem_cons.mp hr3 with h3 | h3
        · subst h3
          rw [clearRowTo_some_length _ _ _ hr2]
          exact hW r (by simp)
        · exact hW r3 (List.mem_cons_of_mem _ h3)
    | succ m =>
      simp only [clearGridTo, Option.map_eq_some'] at h
      obtain ⟨ls3, hls3, rfl⟩ := h
      obtain ⟨hlen, hrows⟩ := ih m ls3 hls3
      constructor
      · simp [hlen]
      · intro w hW r3 hr3
        rcases List.mem_cons.mp hr3 with h3 | h3
        · subst h3
          simpa [blankRow] using hW r (by simp)
        · exact hrows w (fun r4 h4 => hW r4 (List.mem_cons_of_mem _ h4)) r3 h3

theorem WF_write_char (s : RawTerminalPanel) (c : Char) (h : WF s) :
    WF (s.write_char c) := by
  unfold RawTerminalPanel.write_char
  dsimp only
  repeat' split
  all_goals
    first
      | exact h
      | exact GridWF_scrollUp h
      | exact GridWF_set h _ _ (by rw [List.length_set])
      | exact GridWF_scrollUp (GridWF_set h _ _ (by rw [List.length_set]))

theorem WF_execute (s : RawTerminalPanel) (b : Nat) (h : WF s) : WF (s.execute b) := by
  unfold RawTerminalPanel.execute
  repeat' split
  all_goals first | exact h | exact WF_write_char _ _ h

theorem WF_clear_to_cursor (s : RawTerminalPanel) (h : WF s) : WF s.clear_to_cursor := by
  unfold RawTerminalPanel.clear_to_cursor
  split
  · exact h
  · next ls2 heq =>
    obtain ⟨hlen, hrows⟩ := clearGridTo_some_spec s.cursor_x s.cursor_y s.lines ls2 heq
    exact ⟨by rw [hlen]; exact h.1, hrows _ h.2⟩

theorem WF_csiEraseDisplay (s : RawTerminalPanel) (ps : List Nat) (h : WF s) :
    WF (csiEraseDisplay s ps) := by
  unfold csiEraseDisplay
  repeat' split
  all_goals
    first
      | exact h
      | exact GridWF_clearGridFrom _ _ h
      | exact WF_clear_to_cursor _ h
      | exact GridWF_map_blankRow h

theorem WF_csiEraseLine (s : RawTerminalPanel) (ps : List Nat) (h : WF s) :
    WF (csiEraseLine s ps) := by
  unfold csiEraseLine
  split
  · split
    · exact GridWF_set h _ _ (length_clearRowFrom _ _)
    · exact h
  · split
    · split
      · split
        · exact h
        · rename_i r heq
          exact GridWF_set h _ _ (clearRowTo_some_length _ _ _ heq)
      · exact h
    · split
      · split
        · exact GridWF_set h _ _ (by simp [blankRow])
        · exact h
      · exact h

theorem WF_csi_dispatch (s : RawTerminalPanel) (ps : List Nat) (c : Char) (h : WF s) :
    WF (s.csi_dispatch ps c) := by
  unfold RawTerminalPanel.csi_dispatch
  repeat' split
  all_goals
    first
      | exact h
      | exact WF_csiEraseDisplay _ _ h
      | exact WF_csiEraseLine _ _ h
      | (simp only [csiCursorUp, csiCursorDown, csiCursorForward, csiCursorBack,
           csiCursorPos, RawTerminalPanel.handle_sgr]
         repeat' split
         all_goals exact h)

theorem WF_advance (s : RawTerminalPanel) (b : Nat) (h : WF s) : WF (s.advance b) := by
  unfold RawTerminalPanel.advance
  split
  · exact h
  · split
    · split
      · exact h
      · split
        · exact WF_execute _ _ h
        · exact WF_write_char _ _ h
    · split <;> exact h
    · repeat' split
      all_goals first | exact h | exact WF_csi_dispatch _ _ _ h

theorem WF_write_ssh_data (s : RawTerminalPanel) (data : List Nat) (h : WF s) :
    WF (s.write_ssh_data data) := by
  unfold RawTerminalPanel.write_ssh_data
  have : ∀ (l : List Nat) (t : RawTerminalPanel), WF t →
      WF (l.foldl RawTerminalPanel.advance t) := by
    intro l
    induction l with
    | nil => intro t ht; exact ht
    | cons z zs ih =>
      intro t ht
      simp only [List.foldl_cons]
      exact ih _ (WF_advance _ _ ht)
  exact this _ _ h

theorem WF_resize_buffer (s : RawTerminalPanel) : WF s.resize_buffer := by
  constructor
  · simp [RawTerminalPanel.resize_buffer]
  · intro r hr
    simp only [RawTerminalPanel.resize_buffer, List.mem_map] at hr
    obtain ⟨y, hy, rfl⟩ := hr
    simp [RawTerminalPanel.resize_buffer]

theorem WF_set_bounds (s : RawTerminalPanel) (b : Rect) (h : WF s) :
    WF (s.set_bounds b) := by
  unfold RawTerminalPanel.set_bounds
  split
  · exact h
  · exact WF_resize_buffer _

theorem WF_new (b : Rect) : WF (RawTerminalPanel.new b) := by
  constructor
  · simp [RawTerminalPanel.new]
  · intro r hr
    simp only [RawTerminalPanel.new, List.mem_replicate] at hr
    rw [hr.2]
    simp [RawTerminalPanel.new]

theorem WF_applyOp (s : RawTerminalPanel) (op : PanelOp) (h : WF s) :
    WF (applyOp s op) := by
  cases op with
  | feed d => exact WF_write_ssh_data _ _ h
  | clearOp => exact GridWF_map_blankRow h
  | scrollOp => exact GridWF_scrollUp h
  | setBoundsOp b => exact WF_set_bounds _ _ h

theorem WF_applyOps (s : RawTerminalPanel) (ops : List PanelOp) (h : WF s) :
    WF (applyOps s ops) := by
  unfold applyOps
  induction ops generalizing s with
  | nil => exact h
  | cons op rest ih =>
    simp only [List.foldl_cons]
    exact ih _ (WF_applyOp _ _ h)

theorem getD_map_range {α : Type} (n : Nat) (g : Nat → α) (y : Nat) (d : α)
    (h : y < n) : ((List.range n).map g).getD y d = g y := by
  rw [List.getD_eq_getElem _ _ (by simpa using h)]
  simp

theorem getCell_resize_buffer (s : RawTerminalPanel) (y x : Nat)
    (hy : y < s.bounds.height) (hx : x < s.bounds.width) :
    s.resize_buffer.getCell y x =
      if y < s.lines.length ∧ x < (s.lines.getD y []).length then s.getCell y x
      else StyledChar.default := by
  unfold RawTerminalPanel.getCell RawTerminalPanel.resize_buffer
  dsimp only
  rw [getD_map_range _ _ _ _ hy, getD_map_range _ _ _ _ hx]

theorem csi_dispatch_unknown (s : RawTerminalPanel) (ps : List Nat) (c : Char)
    (h : c ∉ (['A', 'B', 'C', 'D', 'H', 'f', 'J', 'K', 'm'] : List Char)) :
    s.csi_dispatch ps c = s := by
  simp only [List.mem_cons, List.not_mem_nil, or_false] at h
  push_neg at h
  obtain ⟨h1, h2, h3, h4, h5, h6, h7, h8, h9⟩ := h
  unfold RawTerminalPanel.csi_dispatch
  rw [if_neg h1, if_neg h2, if_neg h3, if_neg h4, if_neg (by tauto), if_neg h7,
    if_neg h8, if_neg h9]


theorem clearGridTo_none_of_empty_row (cx : Nat) :
    ∀ (cy : Nat) (ls : List (List StyledChar)),
    cy < ls.length → ls.getD cy [] = [] → clearGridTo cx cy ls = none := by
  intro cy ls
  induction ls generalizing cy with
  | nil => intro h _; simp at h
  | cons r rest ih =>
    intro hlt hempty
    cases cy with
    | zero =>
      simp only [List.getD_cons_zero] at hempty
      subst hempty
      rfl
    | succ m =>
      simp only [List.getD_cons_succ] at hempty
      simp only [clearGridTo]
      rw [ih m (by simpa using hlt) hempty]
      rfl

/-! Claim theorems. -/

/-- C1 counterexample: the claim says a line feed does NOT change the
cursor column, but after typing "AB" (column 2) the byte 0x0A moves the
column — the code resets it to 0. -/
theorem C1_lf_preserves_column_refuted :
    (((mkPanel 10 6).write_ssh_data [65, 66]).write_ssh_data [10]).cursor_x ≠
      ((mkPanel 10 6).write_ssh_data [65, 66]).cursor_x := by
  decide

/-- C1 (amended): processing the byte LF moves the cursor to the next
row — scrolling when the cursor was on the last row — AND resets the
column to 0 (the code treats a bare newline like CR + LF); CR resets the
column to 0 and changes nothing else. Feeding "A\r\nB" into a fresh
80 × 24 buffer yields the cursor at (1, 1) with cell (0,0) = A and cell
(1,0) = B. -/
theorem C1_newline_semantics_amended (s : RawTerminalPanel)
    (hp : s.panicked = false) (hg : s.parserState = ParserState.ground) :
    (s.advance 10).cursor_x = 0 ∧
    (s.bounds.height - 2 ≤ s.cursor_y + 1 →
      (s.advance 10).cursor_y = s.bounds.height - 2 - 1 ∧
      (s.advance 10).lines = scrollUpLines s.lines) ∧
    (s.cursor_y + 1 < s.bounds.height - 2 →
      (s.advance 10).cursor_y = s.cursor_y + 1 ∧ (s.advance 10).lines = s.lines) ∧
    s.advance 13 = { s with cursor_x := 0 } ∧
    (let t := (mkPanel 80 24).write_ssh_data [65, 13, 10, 66]
     t.cursor_x = 1 ∧ t.cursor_y = 1 ∧
     (t.getCell 0 0).ch = 'A' ∧ (t.getCell 1 0).ch = 'B') := by
  have hlf : s.advance 10 = s.write_char '\n' := by
    unfold RawTerminalPanel.advance
    rw [hp, hg]
    rfl
  have hcr : s.advance 13 = s.write_char '\x0d' := by
    unfold RawTerminalPanel.advance
    rw [hp, hg]
    rfl
  rw [hlf, hcr, write_char_cr, write_char_lf]
  refine ⟨?_, ?_, ?_, rfl, by decide⟩
  · split <;> rfl
  · intro h
    rw [if_pos h]
    exact ⟨rfl, rfl⟩
  · intro h
    rw [if_neg (by omega)]
    exact ⟨rfl, rfl⟩

theorem C1_newline_semantics_amended_witness :
    ((mkPanel 5 5).advance 10).cursor_x = 0 ∧
    (mkPanel 5 5).advance 13 = { mkPanel 5 5 with cursor_x := 0 } :=
  ⟨(C1_newline_semantics_amended (mkPanel 5 5) rfl rfl).1,
   (C1_newline_semantics_amended (mkPanel 5 5) rfl rfl).2.2.2.1⟩

/-- C2 counterexample: the claim says erase-display leaves the cursor
unchanged for every region variant, but executing CSI 2 J (erase All)
from cursor position (1, 1) moves the cursor row to 0. -/
theorem C2_erase_all_cursor_refuted :
    (((mkPanel 10 6).write_ssh_data [10, 65]).write_ssh_data
        [27, 91, 50, 74]).cursor_y ≠
      ((mkPanel 10 6).write_ssh_data [10, 65]).cursor_y := by
  decide

/-- C2 (amended): for every buffer state, CSI J with parameter 0
(ToEnd) clears exactly the cells at the cursor and after it (rest of
the cursor row, and every row below) and leaves the cursor unchanged;
parameter 1 (ToCursor) clears the cells up to and including the cursor
and leaves the cursor unchanged whenever the rows are non-empty
(positive width) — but on a zero-width buffer whose cursor row exists it
instead hits an out-of-bounds index (a panic, the range 0..=0 reads
element 0 of an empty row); parameter 2 (All) clears every cell and
ALSO resets the cursor to (0, 0). -/
theorem C2_erase_display_amended (s : RawTerminalPanel) (hp : s.panicked = false) :
    ((s.csi_dispatch [0] 'J').cursor_x = s.cursor_x ∧
     (s.csi_dispatch [0] 'J').cursor_y = s.cursor_y ∧
     (s.csi_dispatch [0] 'J').panicked = false ∧
     (∀ y x, y < s.lines.length → x < (s.lines.getD y []).length →
       (s.csi_dispatch [0] 'J').getCell y x =
         if s.cursor_y < y ∨ (y = s.cursor_y ∧ s.cursor_x ≤ x) then StyledChar.default
         else s.getCell y x)) ∧
    ((∀ r ∈ s.lines, r ≠ ([] : List StyledChar)) →
      ((s.csi_dispatch [1] 'J').cursor_x = s.cursor_x ∧
       (s.csi_dispatch [1] 'J').cursor_y = s.cursor_y ∧
       (s.csi_dispatch [1] 'J').panicked = false ∧
       (∀ y x, y < s.lines.length → x < (s.lines.getD y []).length →
         (s.csi_dispatch [1] 'J').getCell y x =
           if y < s.cursor_y ∨ (y = s.cursor_y ∧ x ≤ s.cursor_x) then StyledChar.default
           else s.getCell y x))) ∧
    (s.cursor_y < s.lines.length → s.lines.getD s.cursor_y [] = [] →
      (s.csi_dispatch [1] 'J').panicked = true) ∧
    ((s.csi_dispatch [2] 'J').cursor_x = 0 ∧
     (s.csi_dispatch [2] 'J').cursor_y = 0 ∧
     (s.csi_dispatch [2] 'J').panicked = false ∧
     (∀ y x, y < s.lines.length → x < (s.lines.getD y []).length →
       (s.csi_dispatch [2] 'J').getCell y x = StyledChar.default)) := by
  have h0 : s.csi_dispatch [0] 'J' = s.clear_from_cursor := by
    simp +decide [RawTerminalPanel.csi_dispatch, csiEraseDisplay, getParam]
  have h1 : s.csi_dispatch [1] 'J' = s.clear_to_cursor := by
    simp +decide [RawTerminalPanel.csi_dispatch, csiEraseDisplay, getParam]
  have h2 : s.csi_dispatch [2] 'J' = s.clear := by
    simp +decide [RawTerminalPanel.csi_dispatch, csiEraseDisplay, getParam]
  refine ⟨⟨?_, ?_, ?_, ?_⟩, ?_, ?_, ⟨?_, ?_, ?_, ?_⟩⟩
  · rw [h0]; rfl
  · rw [h0]; rfl
  · rw [h0]; exact hp
  · intro y x hy hx
    rw [h0]
    show ((clearGridFrom s.cursor_x s.cursor_y s.lines).getD y []).getD x
      StyledChar.default = _
    rw [getD_clearGridFrom _ _ _ _ _ hy hx]
    rfl
  · intro hne
    obtain ⟨ls2, hsome, hlen, hrows, hget⟩ :=
      clearGridTo_spec s.cursor_x s.cursor_y s.lines hne
    have hctc : s.clear_to_cursor = { s with lines := ls2 } := by
      unfold RawTerminalPanel.clear_to_cursor
      rw [hsome]
    refine ⟨?_, ?_, ?_, ?_⟩
    · rw [h1, hctc]
    · rw [h1, hctc]
    · rw [h1, hctc]; exact hp
    · intro y x hy hx
      rw [h1, hctc]
      show (ls2.getD y []).getD x StyledChar.default = _
      rw [hget y x hy hx]
      rfl
  · intro hlt hempty
    rw [h1]
    unfold RawTerminalPanel.clear_to_cursor
    rw [clearGridTo_none_of_empty_row _ _ _ hlt hempty]
  · rw [h2]; rfl
  · rw [h2]; rfl
  · rw [h2]; exact hp
  · intro y x hy hx
    rw [h2]
    show ((s.lines.map blankRow).getD y []).getD x StyledChar.default = _
    rw [getD_map_blankRow _ _ hy, blankRow_getD _ _ hx]

theorem C2_erase_display_amended_witness :
    ((mkPanel 4 4).csi_dispatch [0] 'J').cursor_x = (mkPanel 4 4).cursor_x ∧
    ((mkPanel 4 4).csi_dispatch [1] 'J').cursor_x = (mkPanel 4 4).cursor_x ∧
    ((mkPanel 0 3).csi_dispatch [1] 'J').panicked = true ∧
    ((mkPanel 4 4).csi_dispatch [2] 'J').cursor_x = 0 :=
  ⟨(C2_erase_display_amended (mkPanel 4 4) rfl).1.1,
   ((C2_erase_display_amended (mkPanel 4 4) rfl).2.1 (by decide)).1,
   (C2_erase_display_amended (mkPanel 0 3) rfl).2.2.1 (by decide) (by decide),
   (C2_erase_display_amended (mkPanel 4 4) rfl).2.2.2.1⟩

/-- C3: feeding a byte sequence in two chunks through write_ssh_data,
split at any point, produces exactly the same panel state as feeding the
concatenation in a single call, from any starting state — feed is a
homomorphism over byte-sequence concatenation. -/
theorem C3_feed_chunking_homomorphism (s : RawTerminalPanel) (a b : List Nat) :
    (s.write_ssh_data a).write_ssh_data b = s.write_ssh_data (a ++ b) := by
  unfold RawTerminalPanel.write_ssh_data
  have hX : ((s.input_buffer ++ a).foldl RawTerminalPanel.advance
      { s with input_buffer := [] }).input_buffer = [] := by
    rw [foldl_advance_input_buffer]
  rw [hX, panel_eta_input_buffer _ hX, List.nil_append, ← List.append_assoc]
  simp only [List.foldl_append]

/-- C4: the interpreter is NOT total — the CSI B arm computes the
unchecked u16 sum cursor_y + n. From a fresh 80 × 24 panel, feeding one
LF (cursor row 1) and then the bytes of "ESC [ 6 5 5 3 5 B" reaches
1 + 65535 = 65536 > u16 MAX: an arithmetic overflow, which panics in a
debug build (the first conjunct shows the state was healthy before). -/
theorem C4_csi_param_overflow_panics :
    ((mkPanel 80 24).write_ssh_data [10]).panicked = false ∧
    (((mkPanel 80 24).write_ssh_data [10]).write_ssh_data
      [27, 91, 54, 53, 53, 51, 53, 66]).panicked = true := by
  decide

/-- C5 counterexample: the claim says a connect request is rejected with
an error whenever a session is Connecting or Connected; but from the
Connected state (connected = true, connecting = false) SshClient.connect
returns ok and starts a fresh attempt. -/
theorem C5_connect_when_connected_refuted :
    SshClient.connect { connected := true, connecting := false, host := none }
        demoHost =
      Except.ok { connected := true, connecting := true, host := some demoHost } := by
  rfl

/-- C5 (amended): SshClient.connect rejects with an error exactly while
a connection attempt is in progress (connecting); the application layer
connect_to_host additionally refuses — silently, returning ok without
starting anything — whenever a session is Connecting or Connected, and
starts a connection attempt only when neither flag is set (and a key is
available). -/
theorem C5_connect_guard_amended (c : SshClient) (h : Host) (k : Bool) :
    (c.connecting = true → c.connect h = Except.error "Already connecting") ∧
    ((c.connecting || c.connected) = true → connectToHost c h k = Except.ok (c, false)) ∧
    (c.connecting = false → c.connected = false → k = true →
      connectToHost c h k =
        Except.ok ({ c with connecting := true, host := some h }, true)) := by
  refine ⟨?_, ?_, ?_⟩
  · intro hc
    unfold SshClient.connect
    rw [if_pos hc]
  · intro hc
    unfold connectToHost
    rw [if_pos hc]
  · intro h1 h2 h3
    unfold connectToHost SshClient.connect
    rw [if_neg (by simp [h1, h2]), if_neg (by simp [h3]), if_neg (by simp [h1])]

theorem C5_connect_guard_amended_witness :
    connectToHost SshClient.new demoHost true =
      Except.ok ({ SshClient.new with connecting := true, host := some demoHost },
        true) :=
  (C5_connect_guard_amended SshClient.new demoHost true).2.2 rfl rfl rfl

/-- C6: when the reader loop hits a read error (or EOF), the guarded PTY
writer handle is cleared, the loop stops, and the emitted events are
exactly the Data events of the preceding successful reads followed by
one Error (resp. Disconnected) event — no Data event is emitted for any
later read result; and once the writer handle is empty, send_input
returns an error for every connected-flag state instead of silently
dropping the data. -/
theorem C6_session_close_semantics (pre : List (List Nat)) (m : String)
    (post : List ReadResult) (connected : Bool) (data : List Nat) :
    readerRun (pre.map ReadResult.data ++ ReadResult.readErr m :: post) =
      (pre.map SshEvent.dataEv ++ [SshEvent.errorEv m], false, true) ∧
    readerRun (pre.map ReadResult.data ++ ReadResult.eof :: post) =
      (pre.map SshEvent.dataEv ++ [SshEvent.disconnectedEv], false, true) ∧
    send_input connected false data =
      Except.error
        (if connected = true then "No PTY writer available"
         else "SSH not connected") := by
  refine ⟨?_, ?_, ?_⟩
  · induction pre with
    | nil => rfl
    | cons p rest ih => simp [readerRun, ih]
  · induction pre with
    | nil => rfl
    | cons p rest ih => simp [readerRun, ih]
  · cases connected <;> rfl

/-- C7: the CSI H (and f) absolute cursor position sequence takes
1-based row and column parameters defaulting to 1, subtracts 1
(saturating), and clamps with min against bounds − 3 — which places the
cursor inside the legal range 0 … innerHeight − 1 × 0 … innerWidth − 1
(inner = bounds − 2) whenever the bounds are at least 3; the grid is
untouched. Concretely, feeding "ESC [ 5 ; 1 0 H" then X into a fresh
80 × 24 panel writes X at row 4, column 9 (0-based). -/
theorem C7_cursor_position_clamped (s : RawTerminalPanel) (ps : List Nat)
    (c : Char) (hc : c = 'H' ∨ c = 'f') :
    (s.csi_dispatch ps c).cursor_y = min (getParam ps 0 1 - 1) (s.bounds.height - 3) ∧
    (s.csi_dispatch ps c).cursor_x = min (getParam ps 1 1 - 1) (s.bounds.width - 3) ∧
    (3 ≤ s.bounds.height →
      (s.csi_dispatch ps c).cursor_y ≤ (s.bounds.height - 2) - 1) ∧
    (3 ≤ s.bounds.width →
      (s.csi_dispatch ps c).cursor_x ≤ (s.bounds.width - 2) - 1) ∧
    (s.csi_dispatch ps c).lines = s.lines ∧
    (let t := (mkPanel 80 24).write_ssh_data [27, 91, 53, 59, 49, 48, 72, 88]
     t.cursor_y = 4 ∧ t.cursor_x = 10 ∧ (t.getCell 4 9).ch = 'X' ∧
     ((mkPanel 80 24).write_ssh_data [27, 91, 53, 59, 49, 48, 72]).cursor_y = 4 ∧
     ((mkPanel 80 24).write_ssh_data [27, 91, 53, 59, 49, 48, 72]).cursor_x = 9) := by
  have hdisp : s.csi_dispatch ps c = csiCursorPos s ps := by
    rcases hc with hc | hc <;> subst hc <;> rfl
  rw [hdisp]
  unfold csiCursorPos
  refine ⟨rfl, rfl, ?_, ?_, rfl, by decide⟩
  · intro h
    exact le_trans (Nat.min_le_right _ _) (by omega)
  · intro h
    exact le_trans (Nat.min_le_right _ _) (by omega)

theorem C7_cursor_position_clamped_witness :
    ((mkPanel 10 6).csi_dispatch [2, 3] 'H').cursor_y =
      min (getParam [2, 3] 0 1 - 1) ((mkPanel 10 6).bounds.height - 3) :=
  (C7_cursor_position_clamped (mkPanel 10 6) [2, 3] 'H' (Or.inl rfl)).1

/-- C8: a CSI sequence terminated by any final byte (0x40 … 0x7E) other
than the recognized A B C D H f J K m dispatches to the silent
fall-through arm: the whole panel state is unchanged except that the
parser returns to Ground — so the next printable byte is written
normally, as the concrete "ESC [ 9 9 ; 5 z" then Q run shows. -/
theorem C8_unknown_csi_final_byte (s : RawTerminalPanel) (ps : List Nat)
    (cur : Nat) (seen : Bool) (b : Nat) (hp : s.panicked = false)
    (hst : s.parserState = ParserState.csi ps cur seen)
    (hb1 : 0x40 ≤ b) (hb2 : b ≤ 0x7E)
    (hb3 : Char.ofNat b ∉ (['A', 'B', 'C', 'D', 'H', 'f', 'J', 'K', 'm'] : List Char)) :
    s.advance b = { s with parserState := ParserState.ground } ∧
    (let t := (mkPanel 10 6).write_ssh_data [27, 91, 57, 57, 59, 53, 122, 81]
     (t.getCell 0 0).ch = 'Q' ∧ t.cursor_x = 1 ∧ t.cursor_y = 0 ∧
     t.parserState = ParserState.ground) := by
  constructor
  · unfold RawTerminalPanel.advance
    rw [hp, hst]
    show (if 0x30 ≤ b ∧ b ≤ 0x39 then _ else _) = _
    rw [if_neg (by omega), if_neg (by omega), if_pos ⟨hb1, hb2⟩]
    dsimp only
    rw [csi_dispatch_unknown _ _ _ hb3]
    simp [hp]
  · decide

theorem C8_unknown_csi_final_byte_witness :
    ((mkPanel 10 6).write_ssh_data [27, 91, 57, 57, 59, 53]).advance 122 =
      { (mkPanel 10 6).write_ssh_data [27, 91, 57, 57, 59, 53] with
        parserState := ParserState.ground } :=
  (C8_unknown_csi_final_byte ((mkPanel 10 6).write_ssh_data [27, 91, 57, 57, 59, 53])
      [99] 5 true 122 (by decide) (by decide) (by decide) (by decide) (by decide)).1

/-- C9: grid dimension invariant. After construction with any bounds and
after any sequence of operations (feeding arbitrary bytes, clear,
scroll, or resizing through set_bounds), the grid has exactly
bounds.height rows of exactly bounds.width cells each, for the most
recently supplied bounds; and set_bounds installs the new bounds,
preserves the overlapping top-left rectangle of cells and pads every
cell outside the old grid with the default cell. -/
theorem C9_grid_dimension_invariant :
    (∀ (b : Rect) (ops : List PanelOp), WF (applyOps (RawTerminalPanel.new b) ops)) ∧
    (∀ (s : RawTerminalPanel) (b : Rect), WF s →
      WF (s.set_bounds b) ∧
      (s.set_bounds b).bounds = b ∧
      (∀ y x, y < min s.bounds.height b.height → x < min s.bounds.width b.width →
        (s.set_bounds b).getCell y x = s.getCell y x) ∧
      (∀ y x, y < b.height → x < b.width →
        s.bounds.height ≤ y ∨ s.bounds.width ≤ x →
        (s.set_bounds b).getCell y x = StyledChar.default)) := by
  constructor
  · intro b ops
    exact WF_applyOps _ ops (WF_new b)
  · intro s b h
    have hL := h.1
    have hrow : ∀ y, y < s.lines.length → (s.lines.getD y []).length = s.bounds.width := by
      intro y hy
      rw [List.getD_eq_getElem _ _ hy]
      exact h.2 _ (List.getElem_mem hy)
    refine ⟨WF_set_bounds _ _ h, ?_, ?_, ?_⟩
    · unfold RawTerminalPanel.set_bounds
      split
      · next heq => exact heq.symm ▸ rfl
      · rfl
    · intro y x hy hx
      have hy1 : y < b.height := lt_of_lt_of_le hy (min_le_right _ _)
      have hy2 : y < s.bounds.height := lt_of_lt_of_le hy (min_le_left _ _)
      have hx1 : x < b.width := lt_of_lt_of_le hx (min_le_right _ _)
      have hx2 : x < s.bounds.width := lt_of_lt_of_le hx (min_le_left _ _)
      unfold RawTerminalPanel.set_bounds
      split
      · rfl
      · rw [getCell_resize_buffer { s with bounds := b } y x hy1 hx1]
        have hyl : y < s.lines.length := by omega
        have hxl : x < (s.lines.getD y []).length := by rw [hrow y hyl]; exact hx2
        rw [if_pos ⟨hyl, hxl⟩]
        rfl
    · intro y x hy hx hor
      unfold RawTerminalPanel.set_bounds
      split
      · next heq =>
        exfalso
        have h1 : s.bounds.height = b.height := by rw [heq]
        have h2 : s.bounds.width = b.width := by rw [heq]
        rcases hor with h5 | h5 <;> omega
      · rw [getCell_resize_buffer { s with bounds := b } y x hy hx]
        rw [if_neg ?_]
        rintro ⟨h1, h2⟩
        have h1b : y < s.lines.length := h1
        have h2b : x < (s.lines.getD y []).length := h2
        rw [hrow y h1b] at h2b
        rcases hor with h5 | h5 <;> omega

theorem C9_grid_dimension_invariant_witness :
    WF ((mkPanel 3 3).set_bounds { x := 0, y := 0, width := 2, height := 2 }) :=
  (C9_grid_dimension_invariant.2 (mkPanel 3 3)
      { x := 0, y := 0, width := 2, height := 2 } (by constructor <;> decide)).1

/-- C10: backspace (byte 0x08) at column 0 leaves the whole panel state
unchanged — no wrap to the previous line, no column underflow; at any
column greater than 0 it moves the cursor exactly one column left and
changes nothing else (in particular no cell). -/
theorem C10_backspace_at_column_zero (s : RawTerminalPanel)
    (hp : s.panicked = false) (hg : s.parserState = ParserState.ground) :
    (s.cursor_x = 0 → s.advance 8 = s) ∧
    (0 < s.cursor_x → s.advance 8 = { s with cursor_x := s.cursor_x - 1 }) := by
  have hadv : s.advance 8 = s.execute 8 := by
    unfold RawTerminalPanel.advance
    rw [hp, hg]
    rfl
  constructor
  · intro h0
    rw [hadv]
    show (if 0 < s.cursor_x then _ else s) = s
    rw [if_neg (by omega)]
  · intro h0
    rw [hadv]
    show (if 0 < s.cursor_x then _ else s) = _
    rw [if_pos h0]

theorem C10_backspace_at_column_zero_witness :
    (mkPanel 4 4).advance 8 = mkPanel 4 4 ∧
    ((mkPanel 8 8).write_ssh_data [65]).advance 8 =
      { (mkPanel 8 8).write_ssh_data [65] with
        cursor_x := ((mkPanel 8 8).write_ssh_data [65]).cursor_x - 1 } :=
  ⟨(C10_backspace_at_column_zero (mkPanel 4 4) rfl rfl).1 rfl,
   (C10_backspace_at_column_zero ((mkPanel 8 8).write_ssh_data [65])
      (by decide) (by decide)).2 (by decide)⟩

end SshTui
